import Mathlib

/-!
Verification of the conversation session engine of a CLI chat client
(`chat.py`): message history, the turn executor `chat_once`, the
interactive REPL loop `interactive_chat`, the single-shot path `one_shot`,
and model resolution `resolve_model`.

The embedding is shallow: the transport client is a function of the
current message history; Python exceptions are made explicit.  A value of
type `PyErr` distinguishes an ordinary `Exception` (which the source's
`except Exception` handlers catch) from `KeyboardInterrupt` (a
`BaseException` that those handlers do not catch).
-/

set_option maxHeartbeats 1000000

/-- Role tag of a chat message (`"role"` field in the source's dicts). -/
inductive Role where
  | system
  | user
  | assistant
deriving DecidableEq

/-- One history entry: `{"role": ..., "content": ...}`. -/
structure Msg where
  role : Role
  content : String
deriving DecidableEq

/-- A raised Python exception, split by which handlers catch it:
`exc` is any `Exception` (e.g. a transport error), `interrupt` is
`KeyboardInterrupt`, which `except Exception` does not catch. -/
inductive PyErr where
  | exc
  | interrupt
deriving DecidableEq

/-- One event yielded by the streaming response iterator.
`malformed` models an event for which `event.choices[0].delta` raises
(unexpected shape, caught by the per-event `except Exception: pass`);
`delta c` is a well-formed event whose `delta.content` is `c`
(`none` models Python `None`). -/
inductive StreamEvent where
  | malformed
  | delta (content : Option String)
deriving DecidableEq

/-- Outcome of `client.chat.completions.create(..., stream=True)` plus the
iteration over the returned stream: either the call itself raises
(`raised`), or it yields `items` in order and then either finishes
(`tailErr = none`) or raises `e` mid-iteration (`tailErr = some e`). -/
inductive StreamResult where
  | raised (e : PyErr)
  | events (items : List StreamEvent) (tailErr : Option PyErr)

/-- Transport client boundary: both calls receive the full current message
history.  `complete` is the non-streaming
`client.chat.completions.create(model, messages)`: it either raises or
returns `choices[0].message.content` (`none` models Python `None`).
`streamCall` is the same call with `stream=True`. -/
structure Client where
  streamCall : List Msg → StreamResult
  complete : List Msg → Except PyErr (Option String)

/-- Text contributed by one stream event, lines 224-236 of the source:
a malformed event is skipped by the inner `except Exception: pass`; from a
well-formed event, `getattr(delta, "content", None)` is appended only when
truthy (`if text:`), i.e. present and non-empty. -/
def deltaText : StreamEvent → Option String
  | .malformed => none
  | .delta none => none
  | .delta (some s) => if s = "" then none else some s

/-- The non-streaming request, lines 249-260 of the source, invoked with
history `msgs` (the user message already appended): on success the content
(`None` coerced to `""` by `or ""`) is appended as the assistant message
and returned; a raised error propagates, leaving history as it was. -/
def nonStreamCall (client : Client) (msgs : List Msg) :
    List Msg × Except PyErr String :=
  match client.complete msgs with
  | .error e => (msgs, .error e)
  | .ok c =>
    let content := c.getD ""
    (msgs ++ [⟨Role.assistant, content⟩], .ok content)

/-- The turn executor `chat_once` (source lines 181-260).  The first
component of the result is the message list after the call (the source
mutates it in place; here it is returned), the second is the returned
assistant text or the exception that propagated out.

Faithful points: the user message is appended once, up front; with
`stream = true` the whole streaming block sits under `except Exception`,
so an `Exception` at setup or mid-iteration falls back to the
non-streaming path with the same history, while a `KeyboardInterrupt`
propagates; on successful exhaustion the collected fragments are joined
and appended as the single assistant message. -/
def chat_once (client : Client) (messages : List Msg) (prompt : String)
    (stream : Bool) : List Msg × Except PyErr String :=
  let msgs := messages ++ [⟨Role.user, prompt⟩]
  if stream then
    match client.streamCall msgs with
    | .raised .exc => nonStreamCall client msgs
    | .raised .interrupt => (msgs, .error .interrupt)
    | .events items none =>
      let assistant_text := String.join (items.filterMap deltaText)
      (msgs ++ [⟨Role.assistant, assistant_text⟩], .ok assistant_text)
    | .events _ (some .exc) => nonStreamCall client msgs
    | .events _ (some .interrupt) => (msgs, .error .interrupt)
  else
    nonStreamCall client msgs

/-- Initial (and post-clear) history: `[{"role": "system", "content": sp}]
if system_prompt else []` — note Python truthiness, so an empty-string
system prompt seeds nothing. -/
def seedHistory : Option String → List Msg
  | some s => if s = "" then [] else [⟨Role.system, s⟩]
  | none => []

/-- Python `str.strip()` with no arguments: remove leading and trailing
whitespace characters. -/
def strip (s : String) : String :=
  String.mk (((s.data.dropWhile Char.isWhitespace).reverse.dropWhile
    Char.isWhitespace).reverse)

/-- Outcome of one `input()` call in the REPL: a line was read, end of
input was signalled (`EOFError`), or the user interrupted
(`KeyboardInterrupt`). -/
inductive ReadResult where
  | line (raw : String)
  | eofSignal
  | interruptSignal
deriving DecidableEq

/-- Effect of one REPL iteration: continue awaiting input with the given
history, return 0 from `interactive_chat` (break on EOF or `/exit`/`/quit`,
or the `except KeyboardInterrupt` handler), or let an uncaught `Exception`
escape the function (process crash). -/
inductive StepOut where
  | next (messages : List Msg)
  | exit0 (messages : List Msg)
  | crash
deriving DecidableEq

/-- One iteration of the `while True` loop of `interactive_chat`
(source lines 290-323): strip the line, skip blanks, handle `/exit`,
`/quit`, `/clear`, otherwise run a turn via `chat_once`.  A transport
`Exception` raised by the turn is caught by no handler in the function
(only `EOFError` and `KeyboardInterrupt` are) and crashes;
a `KeyboardInterrupt` anywhere in the body reaches the outer
`except KeyboardInterrupt` and the function returns 0. -/
def interactiveStep (client : Client) (system_prompt : Option String)
    (stream : Bool) (messages : List Msg) (r : ReadResult) : StepOut :=
  match r with
  | .eofSignal => .exit0 messages
  | .interruptSignal => .exit0 messages
  | .line raw =>
    let user := strip raw
    if user = "" then .next messages
    else if user = "/exit" ∨ user = "/quit" then .exit0 messages
    else if user = "/clear" then .next (seedHistory system_prompt)
    else
      match chat_once client messages user stream with
      | (m, .ok _) => .next m
      | (_, .error .exc) => .crash
      | (m, .error .interrupt) => .exit0 m

/-- Final observation of an interactive session run on a finite list of
modelled inputs: still awaiting input with history `messages`, returned 0
with final history `messages`, or crashed on an uncaught exception. -/
inductive SessionResult where
  | pending (messages : List Msg)
  | exited (messages : List Msg)
  | crashed
deriving DecidableEq

/-- The REPL loop of `interactive_chat`, folded over a finite list of
input events. -/
def interactiveLoop (client : Client) (system_prompt : Option String)
    (stream : Bool) : List Msg → List ReadResult → SessionResult
  | messages, [] => .pending messages
  | messages, r :: rest =>
    match interactiveStep client system_prompt stream messages r with
    | .next m => interactiveLoop client system_prompt stream m rest
    | .exit0 m => .exited m
    | .crash => .crashed

/-- `interactive_chat` (source lines 263-329): seed the history from the
configured system prompt and run the REPL loop on the given inputs. -/
def interactive_chat (client : Client) (system_prompt : Option String)
    (stream : Bool) (inputs : List ReadResult) : SessionResult :=
  interactiveLoop client system_prompt stream (seedHistory system_prompt) inputs

/-- `one_shot` (source lines 332-350): seed history, run one turn, return
exit code 0; any exception raised by the turn propagates uncaught. -/
def one_shot (client : Client) (system_prompt : Option String)
    (prompt : String) (stream : Bool) : Except PyErr Nat :=
  match chat_once client (seedHistory system_prompt) prompt stream with
  | (_, .ok _) => .ok 0
  | (_, .error e) => .error e

/-- Python `a or b` on two optional strings: the left value wins only when
set and non-empty (truthy). -/
def orElseTruthy (a b : Option String) : Option String :=
  match a with
  | some s => if s = "" then b else some s
  | none => b

/-- `resolve_model` (source lines 152-171) over the two environment
variables: `os.getenv("OPENAI_DEPLOYMENT") or os.getenv("OPENAI_MODEL")`,
then `SystemExit(2)` when the result is unset or empty. -/
def resolve_model (deployment model : Option String) : Except Nat String :=
  match orElseTruthy deployment model with
  | some m => if m = "" then .error 2 else .ok m
  | none => .error 2

/-- The history pattern `(user assistant)*`: alternating user/assistant
pairs. -/
def uaPairs : List Msg → Bool
  | [] => true
  | ⟨Role.user, _⟩ :: ⟨Role.assistant, _⟩ :: rest => uaPairs rest
  | _ => false

/-- The history pattern `[system]? (user assistant)*` of §8 property 1:
an optional leading system message followed by alternating user/assistant
pairs. -/
def histWF : List Msg → Bool
  | ⟨Role.system, _⟩ :: rest => uaPairs rest
  | ms => uaPairs ms

/-- Contents of the well-formed, non-empty fragments of a stream, in
arrival order, as the claim words it: malformed events and events with
absent or empty content contribute nothing. -/
def wellFormedTexts : List StreamEvent → List String
  | [] => []
  | .malformed :: rest => wellFormedTexts rest
  | .delta none :: rest => wellFormedTexts rest
  | .delta (some s) :: rest =>
    if s = "" then wellFormedTexts rest else s :: wellFormedTexts rest

/-- Transport stub whose every call raises an ordinary `Exception`
(a transport error). -/
def errClient : Client :=
  ⟨fun _ => .raised .exc, fun _ => .error .exc⟩

/-- Transport stub whose streaming call raises `KeyboardInterrupt`. -/
def intrClient : Client :=
  ⟨fun _ => .raised .interrupt, fun _ => .error .interrupt⟩

/-- Transport stub whose streaming call raises immediately and whose
non-streaming call returns `"OK"`. -/
def fallbackClient : Client :=
  ⟨fun _ => .raised .exc, fun _ => .ok (some "OK")⟩

/-- Transport stub streaming the fragments `"he"`, `"ll"`, `"o"`. -/
def helloStreamClient : Client :=
  ⟨fun _ => .events [.delta (some "he"), .delta (some "ll"), .delta (some "o")] none,
   fun _ => .ok (some "OK")⟩

/-- Transport stub streaming a mix of well-formed and malformed events. -/
def mixedStreamClient : Client :=
  ⟨fun _ => .events
      [.malformed, .delta (some "a"), .delta none, .delta (some ""),
       .malformed, .delta (some "b")] none,
   fun _ => .ok (some "OK")⟩

/-- Transport stub answering `"NONSTREAM"` on the non-streaming call. -/
def nonStreamClient : Client :=
  ⟨fun _ => .raised .exc, fun _ => .ok (some "NONSTREAM")⟩

/-- On success, the non-streaming request appends exactly one assistant
message carrying the returned content. -/
theorem nonStreamCall_ok (client : Client) (msgs : List Msg) (c : Option String)
    (h : client.complete msgs = .ok c) :
    nonStreamCall client msgs = (msgs ++ [⟨Role.assistant, c.getD ""⟩], .ok (c.getD "")) := by
  simp [nonStreamCall, h]

/-- On a stream consumed to exhaustion, the turn appends exactly one
assistant message carrying the joined fragment texts. -/
theorem chat_once_stream_events (client : Client) (messages : List Msg)
    (prompt : String) (items : List StreamEvent)
    (h : client.streamCall (messages ++ [⟨Role.user, prompt⟩]) = .events items none) :
    chat_once client messages prompt true =
      (messages ++ [⟨Role.user, prompt⟩,
        ⟨Role.assistant, String.join (items.filterMap deltaText)⟩],
       .ok (String.join (items.filterMap deltaText))) := by
  simp [chat_once, h]

theorem chat_once_ok_shape (client : Client) (messages : List Msg)
    (prompt : String) (stream : Bool) (m : List Msg) (t : String)
    (h : chat_once client messages prompt stream = (m, .ok t)) :
    m = messages ++ [⟨Role.user, prompt⟩, ⟨Role.assistant, t⟩] := by
  unfold chat_once nonStreamCall at h
  cases stream <;> simp only [Bool.false_eq_true, if_true, if_false, reduceIte] at h
  · split at h <;> simp only [Prod.mk.injEq, Except.ok.injEq] at h
    · exact absurd h.2 (by simp)
    · obtain ⟨hm, ht⟩ := h
      subst hm; subst ht; simp
  · split at h
    · split at h <;> simp only [Prod.mk.injEq, Except.ok.injEq] at h
      · exact absurd h.2 (by simp)
      · obtain ⟨hm, ht⟩ := h; subst hm; subst ht; simp
    · simp only [Prod.mk.injEq] at h; exact absurd h.2 (by simp)
    · simp only [Prod.mk.injEq, Except.ok.injEq] at h
      obtain ⟨hm, ht⟩ := h; subst hm; subst ht; simp
    · split at h <;> simp only [Prod.mk.injEq, Except.ok.injEq] at h
      · exact absurd h.2 (by simp)
      · obtain ⟨hm, ht⟩ := h; subst hm; subst ht; simp
    · simp only [Prod.mk.injEq] at h; exact absurd h.2 (by simp)

theorem uaPairs_append_pair (p t : String) (l : List Msg)
    (h : uaPairs l = true) :
    uaPairs (l ++ [⟨Role.user, p⟩, ⟨Role.assistant, t⟩]) = true := by
  induction l using uaPairs.induct with
  | case1 => simp [uaPairs]
  | case2 pm am rest ih => simp_all [uaPairs]
  | case3 => simp_all [uaPairs]

theorem histWF_append_pair (p t : String) (l : List Msg)
    (h : histWF l = true) :
    histWF (l ++ [⟨Role.user, p⟩, ⟨Role.assistant, t⟩]) = true := by
  match l with
  | [] => simp [histWF, uaPairs]
  | ⟨Role.system, s⟩ :: rest =>
    simp only [histWF, List.cons_append] at h ⊢
    exact uaPairs_append_pair p t rest h
  | ⟨Role.user, c⟩ :: rest =>
    simp only [histWF, List.cons_append] at h ⊢
    exact uaPairs_append_pair p t _ h
  | ⟨Role.assistant, c⟩ :: rest =>
    simp only [histWF, List.cons_append] at h ⊢
    exact uaPairs_append_pair p t _ h

theorem histWF_seedHistory (sp : Option String) :
    histWF (seedHistory sp) = true := by
  cases sp with
  | none => rfl
  | some s =>
    by_cases hs : s = "" <;> simp [seedHistory, hs, histWF, uaPairs]

theorem interactiveStep_preserves_histWF (client : Client)
    (sp : Option String) (stream : Bool) (messages m : List Msg)
    (r : ReadResult) (hwf : histWF messages = true)
    (h : interactiveStep client sp stream messages r = .next m) :
    histWF m = true := by
  cases r with
  | eofSignal => simp [interactiveStep] at h
  | interruptSignal => simp [interactiveStep] at h
  | line raw =>
    unfold interactiveStep at h
    by_cases h1 : strip raw = ""
    · simp only [h1, if_true, reduceIte] at h
      cases h; exact hwf
    · simp only [h1, if_false, reduceIte] at h
      by_cases h2 : strip raw = "/exit" ∨ strip raw = "/quit"
      · simp [h2] at h
      · simp only [h2, if_false, reduceIte] at h
        by_cases h3 : strip raw = "/clear"
        · simp only [h3, if_true, reduceIte] at h
          cases h; exact histWF_seedHistory sp
        · simp only [h3, if_false, reduceIte] at h
          rcases hc : chat_once client messages (strip raw) stream with ⟨mm, res⟩
          rw [hc] at h
          cases res with
          | ok tt =>
            simp only [StepOut.next.injEq] at h
            subst h
            have := chat_once_ok_shape client messages (strip raw) stream mm tt hc
            subst this
            exact histWF_append_pair _ _ _ hwf
          | error e => cases e <;> simp at h

theorem interactiveLoop_pending_histWF (client : Client) (sp : Option String)
    (stream : Bool) (inputs : List ReadResult) :
    ∀ (messages m : List Msg), histWF messages = true →
      interactiveLoop client sp stream messages inputs = .pending m →
      histWF m = true := by
  induction inputs with
  | nil =>
    intro messages m hwf h
    simp only [interactiveLoop, SessionResult.pending.injEq] at h
    subst h; exact hwf
  | cons r rest ih =>
    intro messages m hwf h
    unfold interactiveLoop at h
    cases hs : interactiveStep client sp stream messages r with
    | next m2 =>
      rw [hs] at h
      exact ih m2 m
        (interactiveStep_preserves_histWF client sp stream messages m2 r hwf hs) h
    | exit0 m2 => rw [hs] at h; simp at h
    | crash => rw [hs] at h; simp at h

theorem filterMap_deltaText_map_delta (frags : List String) :
    List.filterMap (deltaText ∘ fun s => StreamEvent.delta (some s)) frags
      = frags.filter (fun s => s ≠ "") := by
  induction frags with
  | nil => rfl
  | cons a l ih =>
    by_cases ha : a = "" <;>
      simp [Function.comp, deltaText, List.filter_cons, ha, ih]

theorem wellFormedTexts_eq_filterMap (items : List StreamEvent) :
    wellFormedTexts items = items.filterMap deltaText := by
  induction items with
  | nil => rfl
  | cons e rest ih =>
    cases e with
    | malformed => simp [wellFormedTexts, deltaText, ih]
    | delta c =>
      cases c with
      | none => simp [wellFormedTexts, deltaText, ih]
      | some s => by_cases hs : s = "" <;> simp [wellFormedTexts, deltaText, hs, ih]

/-- C1 (counterexample): with a transport whose non-streaming call raises a
transport error, one interactive turn on input `"hi"` crashes the session
loop — the loop does not report the error and return to awaiting input. -/
theorem C1_counterexample :
    interactive_chat errClient none false [.line "hi"] = .crashed := rfl

/-- C1 (amended): in interactive mode, a transport error raised by the
Turn Executor's non-streaming path is caught by no handler in the session
loop (only end-of-input and keyboard interruption are), so it propagates
and crashes the process instead of returning to `AWAITING_INPUT`. -/
theorem C1_amended_transport_error_crashes (client : Client)
    (sp : Option String) (stream : Bool) (messages : List Msg)
    (rest : List ReadResult) (raw : String)
    (h1 : strip raw ≠ "") (h2 : strip raw ≠ "/exit") (h3 : strip raw ≠ "/quit")
    (h4 : strip raw ≠ "/clear")
    (herr : (chat_once client messages (strip raw) stream).2 = .error .exc) :
    interactiveLoop client sp stream messages (.line raw :: rest) = .crashed := by
  have h23 : ¬(strip raw = "/exit" ∨ strip raw = "/quit") := fun h => h.elim h2 h3
  unfold interactiveLoop interactiveStep
  rcases hc : chat_once client messages (strip raw) stream with ⟨mm, res⟩
  rw [hc] at herr
  simp only at herr
  subst herr
  simp [if_neg h1, if_neg h23, if_neg h4, hc]

/-- C1 (amended, witness): concrete crash of the loop at prompt `"hi"`
against the always-failing transport. -/
theorem C1_amended_witness :
    interactiveLoop errClient none false [] [.line "hi"] = .crashed :=
  C1_amended_transport_error_crashes errClient none false [] [] "hi"
    (by decide) (by decide) (by decide) (by decide) rfl

/-- C2: if the streaming call raises (at setup, or mid-consumption after
any items) and the non-streaming call answers `c`, the turn falls back on
the same history and produces exactly one user message followed by exactly
one assistant message — no duplicate user message. -/
theorem C2_stream_fallback (client : Client) (messages : List Msg)
    (prompt : String) (c : Option String)
    (hstream : client.streamCall (messages ++ [⟨Role.user, prompt⟩]) = .raised .exc ∨
      ∃ items, client.streamCall (messages ++ [⟨Role.user, prompt⟩]) =
        .events items (some .exc))
    (hcomplete : client.complete (messages ++ [⟨Role.user, prompt⟩]) = .ok c) :
    chat_once client messages prompt true =
      (messages ++ [⟨Role.user, prompt⟩, ⟨Role.assistant, c.getD ""⟩],
       .ok (c.getD "")) := by
  rcases hstream with h | ⟨items, h⟩ <;>
    simp [chat_once, h, nonStreamCall, hcomplete]

/-- C2 (witness): a stub whose streaming call raises immediately still
yields one user and one assistant message for prompt `"hi"`. -/
theorem C2_stream_fallback_witness :
    chat_once fallbackClient [] "hi" true =
      ([⟨Role.user, "hi"⟩, ⟨Role.assistant, "OK"⟩], .ok "OK") :=
  C2_stream_fallback fallbackClient [] "hi" (some "OK") (Or.inl rfl) rfl

/-- C3: a successfully consumed stream of fragments yields, as the
returned assistant text and as the single appended assistant message, the
concatenation in arrival order of the non-empty fragment contents. -/
theorem C3_stream_concatenation (client : Client) (messages : List Msg)
    (prompt : String) (frags : List String)
    (h : client.streamCall (messages ++ [⟨Role.user, prompt⟩]) =
      .events (frags.map (fun s => .delta (some s))) none) :
    chat_once client messages prompt true =
      (messages ++ [⟨Role.user, prompt⟩,
        ⟨Role.assistant, String.join (frags.filter (fun s => s ≠ ""))⟩],
       .ok (String.join (frags.filter (fun s => s ≠ "")))) := by
  simp [chat_once, h, filterMap_deltaText_map_delta]

/-- C3 (witness): fragments `["he", "ll", "o"]` yield assistant text
`"hello"` and exactly one assistant message carrying it. -/
theorem C3_stream_concatenation_witness :
    chat_once helloStreamClient [] "hi" true =
      ([⟨Role.user, "hi"⟩, ⟨Role.assistant, "hello"⟩], .ok "hello") :=
  C3_stream_concatenation helloStreamClient [] "hi" ["he", "ll", "o"] rfl

/-- C4: a non-streaming turn appends the user message, hands the full
current history to the transport, appends exactly one assistant message
carrying the response text (`""` when the endpoint returns no content),
and returns that text. -/
theorem C4_nonstream_echo (client : Client) (messages : List Msg)
    (prompt : String) (c : Option String)
    (h : client.complete (messages ++ [⟨Role.user, prompt⟩]) = .ok c) :
    chat_once client messages prompt false =
      (messages ++ [⟨Role.user, prompt⟩, ⟨Role.assistant, c.getD ""⟩],
       .ok (c.getD "")) := by
  simp [chat_once, nonStreamCall, h]

/-- C4 (witness): a stub answering `"NONSTREAM"` for prompt `"hello"`
gives history `[{user, hello}, {assistant, NONSTREAM}]` and returns
`"NONSTREAM"`. -/
theorem C4_nonstream_echo_witness :
    chat_once nonStreamClient [] "hello" false =
      ([⟨Role.user, "hello"⟩, ⟨Role.assistant, "NONSTREAM"⟩], .ok "NONSTREAM") :=
  C4_nonstream_echo nonStreamClient [] "hello" (some "NONSTREAM") rfl

/-- C5: over any interactive session — any transport, any streaming
preference, with or without a configured system prompt, across blank
lines, turns and clear commands — whenever the loop is back at
`AWAITING_INPUT`, the history matches `[system]? (user assistant)*`. -/
theorem C5_history_alternation (client : Client) (sp : Option String)
    (stream : Bool) (inputs : List ReadResult) (m : List Msg)
    (h : interactive_chat client sp stream inputs = .pending m) :
    histWF m = true :=
  interactiveLoop_pending_histWF client sp stream inputs
    (seedHistory sp) m (histWF_seedHistory sp) h

/-- C5 (witness): after a turn and a clear under system prompt `"S"`, the
reached history is well formed. -/
theorem C5_history_alternation_witness :
    histWF [⟨Role.system, "S"⟩] = true :=
  C5_history_alternation fallbackClient (some "S") true
    [.line " hi ", .line "/clear"] [⟨Role.system, "S"⟩] rfl

/-- C6: the clear command replaces the history wholesale with the seed:
exactly `[{system, sp}]` when a (non-empty) system prompt `sp` was
configured, exactly `[]` when none was, however many turns came before. -/
theorem C6_clear_resets (client : Client) (stream : Bool)
    (messages : List Msg) (sp : String) (hsp : sp ≠ "") :
    interactiveStep client (some sp) stream messages (.line "/clear") =
      .next [⟨Role.system, sp⟩] ∧
    interactiveStep client none stream messages (.line "/clear") = .next [] := by
  have hs : strip "/clear" = "/clear" := rfl
  constructor <;> simp [interactiveStep, hs, seedHistory, hsp]

/-- C6 (witness): clearing a two-turn history under system prompt `"S"`
yields exactly `[{system, S}]`; with no system prompt, exactly `[]`. -/
theorem C6_clear_resets_witness :
    interactiveStep errClient (some "S") false
      [⟨Role.system, "S"⟩, ⟨Role.user, "a"⟩, ⟨Role.assistant, "b"⟩]
      (.line "/clear") = .next [⟨Role.system, "S"⟩] ∧
    interactiveStep errClient none false
      [⟨Role.system, "S"⟩, ⟨Role.user, "a"⟩, ⟨Role.assistant, "b"⟩]
      (.line "/clear") = .next [] :=
  C6_clear_resets errClient false
    [⟨Role.system, "S"⟩, ⟨Role.user, "a"⟩, ⟨Role.assistant, "b"⟩] "S" (by decide)

/-- C7: malformed events are skipped per fragment: any mix of well-formed
and malformed events is consumed to the end, and the accumulated assistant
text is exactly the contents of the well-formed non-empty fragments in
order. -/
theorem C7_malformed_skip (client : Client) (messages : List Msg)
    (prompt : String) (items : List StreamEvent)
    (h : client.streamCall (messages ++ [⟨Role.user, prompt⟩]) =
      .events items none) :
    chat_once client messages prompt true =
      (messages ++ [⟨Role.user, prompt⟩,
        ⟨Role.assistant, String.join (wellFormedTexts items)⟩],
       .ok (String.join (wellFormedTexts items))) := by
  simp [chat_once, h, wellFormedTexts_eq_filterMap]

/-- C7 (witness): the mixed stream `[malformed, "a", None, "", malformed,
"b"]` accumulates exactly `"ab"`. -/
theorem C7_malformed_skip_witness :
    chat_once mixedStreamClient [] "hi" true =
      ([⟨Role.user, "hi"⟩, ⟨Role.assistant, "ab"⟩], .ok "ab") :=
  C7_malformed_skip mixedStreamClient [] "hi"
    [.malformed, .delta (some "a"), .delta none, .delta (some ""),
     .malformed, .delta (some "b")] rfl

/-- C8 (counterexample): in single-shot mode, a user interruption during
the turn propagates out of `one_shot` uncaught — the program does not
terminate cleanly with exit code 0. -/
theorem C8_counterexample :
    one_shot intrClient none "hi" true = .error .interrupt ∧
    one_shot intrClient none "hi" true ≠ .ok 0 :=
  ⟨rfl, fun h => Except.noConfusion
    ((Eq.symm (rfl : one_shot intrClient none "hi" true =
      Except.error PyErr.interrupt)).trans h)⟩

/-- C8 (amended): in interactive mode an interruption — whether raised
while reading input or while executing a turn — is caught by the loop's
`except KeyboardInterrupt`, which renders a notice and returns 0; in
single-shot mode `one_shot` has no such handler and the interruption
propagates uncaught. -/
theorem C8_amended_interrupt_handling :
    (∀ (client : Client) (sp : Option String) (stream : Bool)
        (messages : List Msg) (rest : List ReadResult),
      interactiveLoop client sp stream messages (.interruptSignal :: rest) =
        .exited messages) ∧
    (∀ (client : Client) (sp : Option String) (stream : Bool)
        (messages mm : List Msg) (rest : List ReadResult) (raw : String),
      strip raw ≠ "" → strip raw ≠ "/exit" → strip raw ≠ "/quit" →
      strip raw ≠ "/clear" →
      chat_once client messages (strip raw) stream = (mm, .error .interrupt) →
      interactiveLoop client sp stream messages (.line raw :: rest) =
        .exited mm) ∧
    (∀ (client : Client) (sp : Option String) (prompt : String)
        (stream : Bool) (mm : List Msg),
      chat_once client (seedHistory sp) prompt stream =
        (mm, .error .interrupt) →
      one_shot client sp prompt stream = .error .interrupt) := by
  refine ⟨?_, ?_, ?_⟩
  · intro client sp stream messages rest
    simp [interactiveLoop, interactiveStep]
  · intro client sp stream messages mm rest raw h1 h2 h3 h4 herr
    have h23 : ¬(strip raw = "/exit" ∨ strip raw = "/quit") := fun h => h.elim h2 h3
    unfold interactiveLoop interactiveStep
    simp [if_neg h1, if_neg h23, if_neg h4, herr]
  · intro client sp prompt stream mm herr
    unfold one_shot
    rw [herr]

/-- C8 (amended, witness): an interruption at the prompt exits the loop
with the history intact; an interruption mid-turn exits with the dangling
user message; in single-shot mode the same interruption propagates. -/
theorem C8_amended_witness :
    interactiveLoop intrClient none true [] [.interruptSignal] = .exited [] ∧
    interactiveLoop intrClient none true [] [.line "hi"] =
      .exited [⟨Role.user, "hi"⟩] ∧
    one_shot intrClient none "hi" true = .error .interrupt :=
  ⟨C8_amended_interrupt_handling.1 intrClient none true [] [],
   C8_amended_interrupt_handling.2.1 intrClient none true [] [⟨Role.user, "hi"⟩]
     [] "hi" (by decide) (by decide) (by decide) (by decide) rfl,
   C8_amended_interrupt_handling.2.2 intrClient none "hi" true
     [⟨Role.user, "hi"⟩] rfl⟩

/-- C9: model resolution prefers the deployment identifier when both are
configured, falls back to the generic identifier when only it is, and
fails with exit code 2 when neither is. -/
theorem C9_model_resolution_precedence :
    (∀ d m : String, d ≠ "" → resolve_model (some d) (some m) = .ok d) ∧
    (∀ m : String, m ≠ "" → resolve_model none (some m) = .ok m) ∧
    resolve_model none none = .error 2 := by
  refine ⟨?_, ?_, rfl⟩
  · intro d m hd; simp [resolve_model, orElseTruthy, hd]
  · intro m hm; simp [resolve_model, orElseTruthy, hm]

/-- C9 (witness): `azure-deploy` beats `ignored-model`; `some-model` is
used alone; nothing configured exits with code 2. -/
theorem C9_model_resolution_witness :
    resolve_model (some "azure-deploy") (some "ignored-model") =
      .ok "azure-deploy" ∧
    resolve_model none (some "some-model") = .ok "some-model" ∧
    resolve_model none none = .error 2 :=
  ⟨C9_model_resolution_precedence.1 "azure-deploy" "ignored-model" (by decide),
   C9_model_resolution_precedence.2.1 "some-model" (by decide),
   C9_model_resolution_precedence.2.2⟩

/-- C10: each interactive input line is stripped before classification: a
line whose stripped form is `/exit` is treated as the exit command, and a
normal turn appends the stripped text as the user message, so stored user
messages carry no leading or trailing whitespace. -/
theorem C10_strip_classification :
    (∀ (client : Client) (sp : Option String) (stream : Bool)
        (messages : List Msg),
      interactiveStep client sp stream messages (.line "  /exit  ") =
        .exit0 messages) ∧
    (∀ (client : Client) (sp : Option String) (messages : List Msg)
        (raw : String) (c : Option String),
      strip raw ≠ "" → strip raw ≠ "/exit" → strip raw ≠ "/quit" →
      strip raw ≠ "/clear" →
      client.complete (messages ++ [⟨Role.user, strip raw⟩]) = .ok c →
      interactiveStep client sp false messages (.line raw) =
        .next (messages ++ [⟨Role.user, strip raw⟩,
          ⟨Role.assistant, c.getD ""⟩])) := by
  constructor
  · intro client sp stream messages
    have hs : strip "  /exit  " = "/exit" := rfl
    simp [interactiveStep, hs]
  · intro client sp messages raw c h1 h2 h3 h4 hc
    have h23 : ¬(strip raw = "/exit" ∨ strip raw = "/quit") := fun h => h.elim h2 h3
    unfold interactiveStep
    simp [if_neg h1, if_neg h23, if_neg h4, chat_once, nonStreamCall, hc]

/-- C10 (witness): `"  /exit  "` exits; `"  hello  "` stores user text
`"hello"` with no surrounding whitespace. -/
theorem C10_strip_classification_witness :
    interactiveStep nonStreamClient none false [] (.line "  /exit  ") =
      .exit0 [] ∧
    interactiveStep nonStreamClient none false [] (.line "  hello  ") =
      .next [⟨Role.user, "hello"⟩, ⟨Role.assistant, "NONSTREAM"⟩] :=
  ⟨C10_strip_classification.1 nonStreamClient none false [],
   C10_strip_classification.2 nonStreamClient none [] "  hello  "
     (some "NONSTREAM") (by decide) (by decide) (by decide) (by decide) rfl⟩
